import Mathlib

/-!
Shallow embedding of the extraction and normalization layer of the
discord-export-visualizer repository (src/modules/account.js,
src/modules/messages.js).  JavaScript values appearing in parsed JSON are
modelled by the inductive type Jsv below; zip archives are modelled as
lists of entries whose file contents are either a parsed JSON value or raw
text that is not valid JSON (JSON.parse of such text throws).  String
splitting and trimming are defined over character lists so that every
definition evaluates by kernel reduction.
-/

namespace Discord

/-- JavaScript values as they occur in this program: undefined, null,
booleans, (integer) numbers, strings, arrays and plain objects. -/
inductive Jsv where
  | undefined : Jsv
  | null : Jsv
  | bool (b : Bool) : Jsv
  | num (n : Int) : Jsv
  | str (s : String) : Jsv
  | arr (elems : List Jsv) : Jsv
  | obj (fields : List (String × Jsv)) : Jsv

/-- JavaScript truthiness: undefined, null, false, 0 and the empty string
are falsy; every array and object is truthy. -/
def Jsv.truthy : Jsv → Bool
  | .undefined => false
  | .null => false
  | .bool b => b
  | .num n => n != 0
  | .str s => s != ""
  | .arr _ => true
  | .obj _ => true

/-- JavaScript nullishness (the test performed by the ?? and ?. operators). -/
def Jsv.nullish : Jsv → Bool
  | .undefined => true
  | .null => true
  | _ => false

/-- Property access v[k] on a non-nullish JavaScript value, for the
properties this program reads: object fields, the length of arrays and
strings, and index 0 of arrays and strings.  Property access on numbers
and booleans yields undefined, as in JavaScript.  Call sites guard
nullish receivers explicitly, since access on null or undefined throws. -/
def jsGet : Jsv → String → Jsv
  | .obj fs, k => (((fs.find? (fun p => p.1 == k)).map Prod.snd).getD .undefined)
  | .arr xs, k =>
      if k == "length" then .num xs.length
      else if k == "0" then (xs.head?).getD .undefined
      else .undefined
  | .str s, k =>
      if k == "length" then .num s.length
      else if k == "0" then (if s.length == 0 then .undefined else .str (String.mk (s.data.take 1)))
      else .undefined
  | _, _ => .undefined

/-- Optional chaining v?.k : undefined when v is nullish, otherwise v[k]. -/
def optChain (v : Jsv) (k : String) : Jsv :=
  if v.nullish then .undefined else jsGet v k

/-- The JavaScript logical-or a || b, which yields a when a is truthy and
b otherwise. -/
def jsOr (a b : Jsv) : Jsv :=
  if a.truthy then a else b

/-- The JavaScript nullish coalescing a ?? b. -/
def coal (a b : Jsv) : Jsv :=
  if a.nullish then b else a

/-- JavaScript strict equality v === n against a number literal: true
exactly when v is that number (a non-number operand is never strictly
equal to a number literal). -/
def jsStrictEqNum (v : Jsv) (n : Int) : Bool :=
  match v with
  | .num m => m == n
  | _ => false

/-- Whether a value is a string. -/
def Jsv.isString : Jsv → Bool
  | .str _ => true
  | _ => false

/-- Whether a value is an array (a sequence). -/
def Jsv.isArr : Jsv → Bool
  | .arr _ => true
  | _ => false

/-- Whether an object value has a field of the given name. -/
def hasField (v : Jsv) (k : String) : Bool :=
  match v with
  | .obj fs => fs.any (fun p => p.1 == k)
  | _ => false

/-! ### Character-list string helpers (kernel-computable) -/

/-- Split a character list at every occurrence of the separator, as the
JavaScript String.split with a single-character separator does (an empty
input yields one empty piece, a trailing separator yields a trailing
empty piece). -/
def splitList (c : Char) : List Char → List (List Char)
  | [] => [[]]
  | x :: xs =>
      if x == c then [] :: splitList c xs
      else
        match splitList c xs with
        | [] => [[x]]
        | p :: ps => (x :: p) :: ps

/-- JavaScript s.split(c) for a one-character separator. -/
def splitChar (c : Char) (s : String) : List String :=
  (splitList c s.data).map String.mk

/-- The whitespace characters trimmed by this embedding of String.trim. -/
def isWs (c : Char) : Bool :=
  c == ' ' || c == '\t' || c == '\n' || c == '\r'

/-- JavaScript s.trim(): strip leading and trailing whitespace. -/
def jsTrim (s : String) : String :=
  String.mk (((s.data.dropWhile isWs).reverse.dropWhile isWs).reverse)

/-- Remove one trailing carriage return from a line, if present. -/
def dropLastCr (s : String) : String :=
  String.mk (match s.data.reverse with
    | '\r' :: rest => rest.reverse
    | _ => s.data)

/-- Helper for splitLines: every piece except the last had a following
newline, so a carriage return immediately before that newline is removed. -/
def splitLinesAux : List String → List String
  | [] => []
  | [last] => [last]
  | p :: rest => dropLastCr p :: splitLinesAux rest

/-- JavaScript s.split(/\r?\n/): split at newlines, where each matched
newline may consume one immediately preceding carriage return. -/
def splitLines (text : String) : List String :=
  splitLinesAux (splitChar '\n' text)

/-- Whether s starts with the given piece. -/
def strStartsWith (s piece : String) : Bool :=
  piece.data.isPrefixOf s.data

/-- Whether s ends with the given piece. -/
def strEndsWith (s piece : String) : Bool :=
  piece.data.isSuffixOf s.data

/-- Drop the first n characters of s. -/
def strDrop (s : String) (n : Nat) : String :=
  String.mk (s.data.drop n)

/-! ### Zip archive model -/

/-- Contents of one archive file: either text that parses as the JSON
value v, or raw text that is not valid JSON. -/
inductive FileData where
  | parsed (v : Jsv)
  | raw (text : String)

/-- The text content of a file, as read by file.async with the string
type.  Only CSV logs are read as plain text by the code modelled here,
and those are stored raw. -/
def FileData.asText : FileData → String
  | .raw s => s
  | .parsed _ => ""

/-- One entry of the archive: a path, a directory flag and file contents. -/
structure ZipEntry where
  path : String
  isDir : Bool
  data : FileData

/-- A loaded archive: its entries in archive enumeration order. -/
abbrev Zip := List ZipEntry

/-- JSZip zip.file(path): the file at that exact path, or none when the
path is absent or names a directory entry. -/
def zipFile (zip : Zip) (p : String) : Option FileData :=
  ((zip.find? (fun e => !e.isDir && e.path == p)).map ZipEntry.data)

/-- readJson from account.js and messages.js: look the file up (throwing
when absent) and JSON.parse its text (throwing on malformed content).
Both failure modes reject the returned promise, modelled as .error. -/
def readJson (zip : Zip) (p : String) : Except Unit Jsv :=
  match zipFile zip p with
  | none => .error ()
  | some (.raw _) => .error ()
  | some (.parsed v) => .ok v

/-- JSZip zip.folder(pre).forEach: every entry (files and directories)
whose path strictly extends the folder path, paired with its path
relative to the folder, in archive enumeration order. -/
def folderEntries (zip : Zip) (pre : String) : List (String × ZipEntry) :=
  zip.filterMap (fun e =>
    if strStartsWith e.path pre && !(e.path == pre) then
      some (strDrop e.path pre.length, e)
    else none)

/-! ### account.js -/

/-- The folder that holds one subfolder per connected application. -/
def appsRoot : String := "Account/applications/"

/-- Normalized account record built by parseUser. -/
structure UserRecord where
  id : Jsv
  username : Jsv
  discriminator : Jsv
  globalName : Jsv
  email : Jsv
  verified : Jsv
  phone : Jsv
  premiumUntil : Jsv
  flags : Jsv

/-- parseUser from account.js: read Account/user.json and build the
simplified record.  A null parse result makes the subsequent property
accesses throw, rejecting the promise. -/
def parseUser (zip : Zip) : Except Unit UserRecord :=
  match readJson zip "Account/user.json" with
  | .error e => .error e
  | .ok user =>
      if user.nullish then .error ()
      else .ok {
        id := jsGet user "id",
        username := jsGet user "username",
        discriminator := jsGet user "discriminator",
        globalName := jsOr (jsGet user "global_name") .null,
        email := jsGet user "email",
        verified := jsGet user "verified",
        phone := jsGet user "phone",
        premiumUntil := jsGet user "premium_until",
        flags := jsOr (jsGet user "flags") (.arr []) }

/-- One connected application as pushed by parseApplications. -/
structure AppRecord where
  id : Jsv
  name : Jsv
  description : Jsv

/-- Outcome of parseApplications under the single-threaded event-loop
semantics of JavaScript.  The async callback passed to forEach runs
synchronously only up to its first await; the awaited readJson cannot
settle before parseApplications returns, so at the moment the returned
promise resolves the result array holds no pushes (returned), every
matching entry has a read still pending (pendingReads), and only after
those reads settle does the shared array hold the records of the
successfully read files (eventual, one per read that did not reject). -/
structure ParseAppsResult where
  returned : List AppRecord
  pendingReads : List String
  eventual : List AppRecord

/-- parseApplications from account.js.  zip.folder always yields a folder
object (it is truthy even when no entry matches), so the early return for
a missing folder is never taken.  forEach iterates the folder entries; for
each file whose relative path ends in application.json the async callback
awaits readJson and then pushes a record onto the result array, but
parseApplications has already returned the array by then. -/
def parseApplications (zip : Zip) : ParseAppsResult :=
  let matching := (folderEntries zip appsRoot).filter
      (fun pe => !pe.2.isDir && strEndsWith pe.1 "application.json")
  { returned := [],
    pendingReads := matching.map (fun pe => appsRoot ++ pe.1),
    eventual := matching.filterMap (fun pe =>
      match readJson zip (appsRoot ++ pe.1) with
      | .error _ => none
      | .ok j =>
          if j.nullish then none
          else some { id := jsGet j "id", name := jsGet j "name",
                      description := jsGet j "description" }) }

/-! ### messages.js -/

/-- parseCsv from messages.js: trim the text, split into lines, take the
first line as the comma-separated header row, and turn every further line
into an object assigning values to headers by position (a missing value
assigns undefined). -/
def parseCsv (text : String) : List (List (String × Jsv)) :=
  let lines := splitLines (jsTrim text)
  if lines.length == 0 then []
  else
    let headers := splitChar ',' (lines.headD "")
    (lines.drop 1).map (fun line =>
      let values := splitChar ',' line
      (headers.enum).foldl
        (fun o hi => setField o hi.2 ((values.get? hi.1).elim Jsv.undefined Jsv.str)) [])
where
  /-- JavaScript property assignment o[k] = v: update the value in place
  when the key exists, append the pair otherwise. -/
  setField : List (String × Jsv) → String → Jsv → List (String × Jsv)
    | [], k, v => [(k, v)]
    | (k1, v1) :: rest, k, v =>
        if k1 == k then (k, v) :: rest else (k1, v1) :: setField rest k v

/-- JavaScript property read o[k] on a record object: the stored value,
or undefined when the key is absent. -/
def getField (o : List (String × Jsv)) (k : String) : Jsv :=
  (((o.find? (fun p => p.1 == k)).map Prod.snd).getD .undefined)

/-- The path of the JSON message log of a channel directory. -/
def jsonPathOf (dir : String) : String := "Messages/" ++ dir ++ "/messages.json"

/-- The path of the CSV message log of a channel directory. -/
def csvPathOf (dir : String) : String := "Messages/" ++ dir ++ "/messages.csv"

/-- The path of the metadata file of a channel directory. -/
def channelPathOf (dir : String) : String := "Messages/" ++ dir ++ "/channel.json"

/-- Normalized message shape built by readMessages. -/
structure Msg where
  id : Jsv
  timestamp : Jsv
  content : Jsv
  attachments : Jsv

/-- The record mapping of the JSON branch of readMessages: each logical
field is m.Capitalized ?? m.lowercase ?? the empty string.  A nullish
record makes the property accesses throw, rejecting readMessages. -/
def msgFromJson (m : Jsv) : Except Unit Msg :=
  if m.nullish then .error ()
  else .ok {
    id := coal (jsGet m "ID") (coal (jsGet m "id") (.str "")),
    timestamp := coal (jsGet m "Timestamp") (coal (jsGet m "timestamp") (.str "")),
    content := coal (jsGet m "Contents") (coal (jsGet m "content") (.str "")),
    attachments := coal (jsGet m "Attachments") (coal (jsGet m "attachments") (.str "")) }

/-- The record mapping of the CSV branch of readMessages: the four
capitalized columns, read without any fallback. -/
def msgFromCsv (m : List (String × Jsv)) : Msg :=
  { id := getField m "ID",
    timestamp := getField m "Timestamp",
    content := getField m "Contents",
    attachments := getField m "Attachments" }

/-- readMessages from messages.js: prefer the JSON log (whose parse
failure, or non-array content, rejects), else parse the CSV log, else
yield the empty list. -/
def readMessages (zip : Zip) (dir : String) : Except Unit (List Msg) :=
  match zipFile zip (jsonPathOf dir) with
  | some _ =>
      (match readJson zip (jsonPathOf dir) with
       | .error e => .error e
       | .ok (.arr ms) => ms.mapM msgFromJson
       | .ok _ => .error ())
  | none =>
      match zipFile zip (csvPathOf dir) with
      | some fd => .ok ((parseCsv fd.asText).map msgFromCsv)
      | none => .ok []

/-- Channel metadata record built by readChannelInfo. -/
structure ChannelInfo where
  id : Jsv
  name : Jsv
  type : Jsv
  is_dm : Bool
  guild : Jsv

/-- The fallback record built in the catch branch of readChannelInfo. -/
def fallbackInfo (dir : String) : ChannelInfo :=
  { id := .str dir,
    name := .str ("DM " ++ dir),
    type := .str "",
    is_dm := true,
    guild := .null }

/-- readChannelInfo from messages.js.  Any throw inside the try block
(file absent, malformed JSON, or property access on a null parse result)
lands in the catch branch and yields the fallback record. -/
def readChannelInfo (zip : Zip) (dir : String) : ChannelInfo :=
  match readJson zip (channelPathOf dir) with
  | .error _ => fallbackInfo dir
  | .ok ch =>
      if ch.nullish then fallbackInfo dir
      else
        let isDM := !(jsGet ch "guild_id").truthy &&
          (jsStrictEqNum (jsGet ch "type") 1 || jsStrictEqNum (jsGet ch "type") 3 ||
            (optChain (jsGet ch "recipients") "length").truthy)
        { id := jsGet ch "id",
          name := jsOr (jsGet ch "name")
            (jsOr (optChain (optChain (jsGet ch "recipients") "0") "username")
              (jsOr (optChain (jsGet ch "recipient") "username")
                (.str ("DM " ++ dir)))),
          type := jsGet ch "type",
          is_dm := isDM,
          guild := coal (optChain (jsGet ch "guild") "name") .null }

/-- The path filter of listChannelDirs: the regular expression matches a
path of exactly three segments, Messages, then a nonempty directory
identifier, then one of the three expected filenames, and captures the
identifier. -/
def matchChannelPath (p : String) : Option String :=
  match splitChar '/' p with
  | ["Messages", d, f] =>
      if d != "" && (f == "messages.json" || f == "messages.csv" || f == "channel.json")
      then some d else none
  | _ => none

/-- listChannelDirs from messages.js: walk every archive entry, collect
the captured identifiers into a Set (insertion order, duplicates
ignored), and return them as an array. -/
def listChannelDirs (zip : Zip) : List String :=
  zip.foldl (fun dirs e =>
    match matchChannelPath e.path with
    | some d => if dirs.contains d then dirs else dirs ++ [d]
    | none => dirs) []

/-! ### Concrete archives used to evaluate the definitions -/

/-- The CSV sample of the parseCsv test in messages.js. -/
def csvSample : String :=
  "ID,Timestamp,Contents,Attachments\n1,2021-01-01,Hello,\n2,2021-01-02,World,link"

/-- An archive with one application subfolder holding a well-formed
application.json. -/
def zipC1 : Zip := [
  ⟨"Account/", true, .raw ""⟩,
  ⟨"Account/applications/", true, .raw ""⟩,
  ⟨"Account/applications/1234/", true, .raw ""⟩,
  ⟨"Account/applications/1234/application.json", false,
    .parsed (.obj [("id", .str "1234"), ("name", .str "MyApp"),
                   ("description", .str "a bot")])⟩]

/-- An archive with one well-formed and one malformed application.json. -/
def zipC2 : Zip := [
  ⟨"Account/applications/1111/application.json", false,
    .parsed (.obj [("id", .str "1111"), ("name", .str "GoodApp"),
                   ("description", .str "ok")])⟩,
  ⟨"Account/applications/2222/application.json", false, .raw "not json"⟩]

/-- Channel metadata with a DM type code and no guild_id field. -/
def chW4 : Jsv := .obj [("id", .str "9"), ("type", .num 1)]

/-- Archive holding chW4 at Messages/9/channel.json. -/
def zipW4 : Zip := [⟨"Messages/9/channel.json", false, .parsed chW4⟩]

/-- Channel metadata whose guild_id field is present but null. -/
def chX4 : Jsv := .obj [("id", .str "77"), ("guild_id", .null), ("type", .num 1)]

/-- Archive holding chX4 at Messages/77/channel.json. -/
def zipX4 : Zip := [⟨"Messages/77/channel.json", false, .parsed chX4⟩]

/-- Channel metadata with one recipient named alice and no name field. -/
def chW5 : Jsv := .obj [("id", .str "42"),
  ("recipients", .arr [.obj [("username", .str "alice")]])]

/-- Archive holding chW5 at Messages/42/channel.json. -/
def zipW5 : Zip := [⟨"Messages/42/channel.json", false, .parsed chW5⟩]

/-- Channel metadata whose first recipient has an empty username while the
singular recipient field names bob. -/
def chX5 : Jsv := .obj [("id", .str "123"),
  ("recipients", .arr [.obj [("username", .str "")]]),
  ("recipient", .obj [("username", .str "bob")])]

/-- Archive holding chX5 at Messages/123/channel.json. -/
def zipX5 : Zip := [⟨"Messages/123/channel.json", false, .parsed chX5⟩]

/-- The mixed-casing message record of the resolution example. -/
def mW6 : Jsv := .obj [("ID", .str "9"), ("content", .str "hi")]

/-- Archive whose JSON message log holds exactly the record mW6. -/
def zipW6 : Zip := [⟨"Messages/c/messages.json", false, .parsed (.arr [mW6])⟩]

/-- A profile whose flags field is a sequence. -/
def userW8 : Jsv := .obj [("id", .str "u1"), ("username", .str "bob"),
  ("flags", .arr [.str "STAFF"])]

/-- Archive holding userW8 at Account/user.json. -/
def zipW8 : Zip := [⟨"Account/user.json", false, .parsed userW8⟩]

/-- The record parseUser builds from userW8. -/
def uW8 : UserRecord :=
  ⟨.str "u1", .str "bob", .undefined, .null, .undefined, .undefined, .undefined, .undefined,
   .arr [.str "STAFF"]⟩

/-- A profile whose flags field is the number 7 (truthy, not a sequence). -/
def userX8 : Jsv := .obj [("id", .str "u2"), ("username", .str "eve"),
  ("flags", .num 7)]

/-- Archive holding userX8 at Account/user.json. -/
def zipX8 : Zip := [⟨"Account/user.json", false, .parsed userX8⟩]

/-- The record parseUser builds from userX8. -/
def uX8 : UserRecord :=
  ⟨.str "u2", .str "eve", .undefined, .null, .undefined, .undefined, .undefined, .undefined,
   .num 7⟩

/-- An archive in which the same channel directory has a JSON log, a CSV
log and a metadata file. -/
def zipC9 : Zip := [
  ⟨"Messages/123/messages.json", false, .parsed (.arr [])⟩,
  ⟨"Messages/123/messages.csv", false, .raw ""⟩,
  ⟨"Messages/123/channel.json", false, .raw ""⟩]

/-- An archive whose only message log is a CSV without ID or Attachments
columns. -/
def zipX10 : Zip :=
  [⟨"Messages/c/messages.csv", false, .raw "Timestamp,Contents\n2021,hi"⟩]

end Discord

namespace Discord

/-! ### Helper lemmas -/

theorem nullish_false_ne_undef {a : Jsv} (h : a.nullish = false) : a ≠ .undefined := by
  intro he; subst he; simp [Jsv.nullish] at h

theorem coal_ne_undef {a b : Jsv} (hb : b ≠ .undefined) : coal a b ≠ .undefined := by
  unfold coal
  cases hn : a.nullish with
  | true => simpa using hb
  | false => simpa using nullish_false_ne_undef hn

theorem jsStrictEqNum_eq_true_iff (v : Jsv) (n : Int) :
    jsStrictEqNum v n = true ↔ v = .num n := by
  cases v <;> simp [jsStrictEqNum]

/-! ### Claim theorems -/

/-- C1: the application-list extraction resolves with the result array
still empty while every discovered application.json read is pending; the
record of the well-formed subfolder only appears in the array after
parseApplications has already returned (code bug: the async forEach
callbacks are never awaited). -/
theorem c1_extraction_returns_before_reads :
    (parseApplications zipC1).returned = [] ∧
    (parseApplications zipC1).pendingReads =
      ["Account/applications/1234/application.json"] ∧
    (parseApplications zipC1).eventual =
      [⟨.str "1234", .str "MyApp", .str "a bot"⟩] :=
  ⟨rfl, rfl, rfl⟩

/-- C2: with one well-formed and one malformed application.json, the
sequence parseApplications hands back is empty, so it does not include
the well-formed record; only the never-collected eventual pushes contain
it (the malformed read rejects in isolation and pushes nothing). -/
theorem c2_wellformed_records_missing_at_return :
    (parseApplications zipC2).returned = [] ∧
    (parseApplications zipC2).pendingReads.length = 2 ∧
    (parseApplications zipC2).eventual =
      [⟨.str "1111", .str "GoodApp", .str "ok"⟩] :=
  ⟨rfl, rfl, rfl⟩

/-- C3 (amended): when reading or parsing Messages/dir/channel.json
fails, readChannelInfo does not propagate the error and returns exactly
the fallback record with id the identifier, name the identifier prefixed
by DM and a space, type the empty string, is_dm true and guild null. -/
theorem c3_fallback_record (zip : Zip) (dir : String)
    (h : readJson zip (channelPathOf dir) = .error ()) :
    readChannelInfo zip dir =
      { id := .str dir, name := .str ("DM " ++ dir), type := .str "",
        is_dm := true, guild := .null } := by
  simp only [readChannelInfo, h]
  rfl

/-- Witness for C3 at a channel directory with no channel.json. -/
theorem c3_fallback_record_witness :
    readChannelInfo ([] : Zip) "7" =
      { id := .str "7", name := .str "DM 7", type := .str "",
        is_dm := true, guild := .null } :=
  c3_fallback_record [] "7" rfl

/-- C3 counterexample: the fallback record sets type to the empty string,
not to undefined (unset). -/
theorem c3_fallback_type_not_unset :
    (readChannelInfo ([] : Zip) "7").type = .str "" ∧ Jsv.str "" ≠ Jsv.undefined :=
  ⟨rfl, fun hc => Jsv.noConfusion hc⟩

/-- C4 counterexample: a record whose guild_id field is present (but
null) is still classified as a direct message, though the claim requires
every record with a guild-association field to be guild-associated. -/
theorem c4_guild_null_classified_dm :
    (readChannelInfo zipX4 "77").is_dm = true ∧ hasField chX4 "guild_id" = true :=
  ⟨rfl, rfl⟩

/-- C5 counterexample: the first recipient has a present (empty-string)
username, yet the resolved name is taken from the singular recipient
field instead, because the empty string is falsy. -/
theorem c5_empty_username_skipped :
    (readChannelInfo zipX5 "123").name = .str "bob" ∧
    optChain (optChain (jsGet chX5 "recipients") "0") "username" = .str "" ∧
    Jsv.str "bob" ≠ Jsv.str "" :=
  ⟨rfl, rfl, fun hc => absurd (Jsv.str.inj hc) (by simp)⟩

/-- C6 counterexample: a record holding both a null capitalized key and a
lowercase key resolves to the lowercase value, so the capitalized form
does not take precedence merely because both keys exist. -/
theorem c6_null_capitalized_not_precedent :
    msgFromJson (.obj [("ID", .null), ("id", .str "9")]) =
      .ok ⟨.str "9", .str "", .str "", .str ""⟩ ∧
    hasField (.obj [("ID", .null), ("id", .str "9")]) "ID" = true ∧
    hasField (.obj [("ID", .null), ("id", .str "9")]) "id" = true ∧
    Jsv.str "9" ≠ Jsv.null :=
  ⟨rfl, rfl, rfl, fun hc => Jsv.noConfusion hc⟩

/-- C8 (amended): the normalized flags field keeps the profile's flags
value whenever that value is truthy, and defaults to the empty sequence
whenever the value is absent or otherwise falsy. -/
theorem c8_flags_normalization (zip : Zip) (user : Jsv) (u : UserRecord)
    (h : readJson zip "Account/user.json" = .ok user)
    (hu : parseUser zip = .ok u) :
    ((jsGet user "flags").truthy = true → u.flags = jsGet user "flags") ∧
    ((jsGet user "flags").truthy = false → u.flags = .arr []) := by
  unfold parseUser at hu
  simp only [h] at hu
  cases hn : user.nullish with
  | true => rw [hn] at hu; exact absurd hu (by simp)
  | false =>
      rw [hn] at hu
      simp only [Bool.false_eq_true, if_false, Except.ok.injEq] at hu
      subst hu
      constructor <;> intro ht <;> simp [jsOr, ht]

/-- Witness for C8 at a profile whose flags value is a sequence. -/
theorem c8_flags_normalization_witness : uW8.flags = jsGet userW8 "flags" :=
  (c8_flags_normalization zipW8 userW8 uW8 rfl rfl).1 rfl

/-- C8 counterexample: a truthy non-sequence flags value (the number 7)
is passed through unchanged instead of defaulting to the empty sequence. -/
theorem c8_truthy_nonsequence_kept :
    parseUser zipX8 = .ok uX8 ∧ uX8.flags = .num 7 ∧ Jsv.isArr (.num 7) = false :=
  ⟨rfl, rfl, rfl⟩

/-- C10 counterexample: a numeric source value is kept as a number, so
not every output field of the JSON path is a string. -/
theorem c10_nonstring_value_kept :
    msgFromJson (.obj [("ID", .num 5)]) =
      .ok ⟨.num 5, .str "", .str "", .str ""⟩ ∧
    Jsv.isString (.num 5) = false :=
  ⟨rfl, rfl⟩

end Discord

namespace Discord

/-- C4 (amended): for a successfully parsed, non-null metadata record
whose recipients field, when present, is null or a list, the resolved
is_dm flag is true exactly when the guild_id value is falsy (absent,
null, false, zero or empty) and either the type code is one of the two
known DM codes or the recipients list is non-empty. -/
theorem c4_dm_classification (zip : Zip) (dir : String) (ch : Jsv)
    (h : readJson zip (channelPathOf dir) = .ok ch) (hn : ch.nullish = false)
    (hr : jsGet ch "recipients" = .undefined ∨ jsGet ch "recipients" = .null ∨
          ∃ xs, jsGet ch "recipients" = .arr xs) :
    (readChannelInfo zip dir).is_dm = true ↔
      ((jsGet ch "guild_id").truthy = false ∧
        (jsGet ch "type" = .num 1 ∨ jsGet ch "type" = .num 3 ∨
          ∃ x xs, jsGet ch "recipients" = .arr (x :: xs))) := by
  have hinfo : (readChannelInfo zip dir).is_dm =
      (!(jsGet ch "guild_id").truthy &&
        (jsStrictEqNum (jsGet ch "type") 1 || jsStrictEqNum (jsGet ch "type") 3 ||
          (optChain (jsGet ch "recipients") "length").truthy)) := by
    unfold readChannelInfo
    simp [h, hn]
  have hlen : ((optChain (jsGet ch "recipients") "length").truthy = true) ↔
      (∃ x xs, jsGet ch "recipients" = .arr (x :: xs)) := by
    rcases hr with h1 | h1 | ⟨xs, h1⟩ <;> rw [h1]
    · simp [optChain, Jsv.nullish, Jsv.truthy]
    · simp [optChain, Jsv.nullish, Jsv.truthy]
    · cases xs with
      | nil => simp [optChain, Jsv.nullish, jsGet, Jsv.truthy]
      | cons a as =>
          simp [optChain, Jsv.nullish, jsGet, Jsv.truthy]
          omega
  rw [hinfo]
  simp only [Bool.and_eq_true, Bool.or_eq_true, Bool.not_eq_true',
    jsStrictEqNum_eq_true_iff, hlen]
  tauto

/-- Witness for C4 at a record with a DM type code, no guild_id field and
no recipients field. -/
theorem c4_dm_classification_witness :
    (readChannelInfo zipW4 "9").is_dm = true ↔
      ((jsGet chW4 "guild_id").truthy = false ∧
        (jsGet chW4 "type" = .num 1 ∨ jsGet chW4 "type" = .num 3 ∨
          ∃ x xs, jsGet chW4 "recipients" = .arr (x :: xs))) :=
  c4_dm_classification zipW4 "9" chW4 rfl rfl (Or.inl rfl)

/-- C5 (amended): for a successfully parsed, non-null metadata record the
resolved display name follows the priority order name field, first
recipient username, singular recipient username, synthetic DM label,
where each stage is taken when its value is truthy (for a string, when
it is non-empty) and skipped when it is falsy or absent. -/
theorem c5_name_priority (zip : Zip) (dir : String) (ch : Jsv)
    (h : readJson zip (channelPathOf dir) = .ok ch) (hn : ch.nullish = false) :
    ((jsGet ch "name").truthy = true →
      (readChannelInfo zip dir).name = jsGet ch "name") ∧
    ((jsGet ch "name").truthy = false →
      (optChain (optChain (jsGet ch "recipients") "0") "username").truthy = true →
      (readChannelInfo zip dir).name =
        optChain (optChain (jsGet ch "recipients") "0") "username") ∧
    ((jsGet ch "name").truthy = false →
      (optChain (optChain (jsGet ch "recipients") "0") "username").truthy = false →
      (optChain (jsGet ch "recipient") "username").truthy = true →
      (readChannelInfo zip dir).name = optChain (jsGet ch "recipient") "username") ∧
    ((jsGet ch "name").truthy = false →
      (optChain (optChain (jsGet ch "recipients") "0") "username").truthy = false →
      (optChain (jsGet ch "recipient") "username").truthy = false →
      (readChannelInfo zip dir).name = .str ("DM " ++ dir)) := by
  have hname : (readChannelInfo zip dir).name =
      jsOr (jsGet ch "name")
        (jsOr (optChain (optChain (jsGet ch "recipients") "0") "username")
          (jsOr (optChain (jsGet ch "recipient") "username")
            (.str ("DM " ++ dir)))) := by
    unfold readChannelInfo
    simp [h, hn]
  refine ⟨?_, ?_, ?_, ?_⟩ <;> intros <;> rw [hname] <;> simp [jsOr, *]

/-- Witness for C5: a record with recipients [{username: alice}] and no
name field resolves to alice. -/
theorem c5_name_priority_witness : (readChannelInfo zipW5 "42").name = .str "alice" := by
  have hw := (c5_name_priority zipW5 "42" chW5 rfl rfl).2.1 rfl rfl
  exact hw

/-- C6 (amended): each logical message field is resolved by trying the
capitalized key first and the lowercase key second, the capitalized form
taking precedence whenever it holds a non-null value; a null or absent
capitalized key falls back to the lowercase key.  The mixed-casing
example record resolves id 9 and content hi. -/
theorem c6_field_casing (m : Jsv) (msg : Msg) (h : msgFromJson m = .ok msg) :
    ((jsGet m "ID").nullish = false → msg.id = jsGet m "ID") ∧
    ((jsGet m "ID").nullish = true → (jsGet m "id").nullish = false →
      msg.id = jsGet m "id") ∧
    ((jsGet m "Timestamp").nullish = false → msg.timestamp = jsGet m "Timestamp") ∧
    ((jsGet m "Timestamp").nullish = true → (jsGet m "timestamp").nullish = false →
      msg.timestamp = jsGet m "timestamp") ∧
    ((jsGet m "Contents").nullish = false → msg.content = jsGet m "Contents") ∧
    ((jsGet m "Contents").nullish = true → (jsGet m "content").nullish = false →
      msg.content = jsGet m "content") ∧
    ((jsGet m "Attachments").nullish = false → msg.attachments = jsGet m "Attachments") ∧
    ((jsGet m "Attachments").nullish = true → (jsGet m "attachments").nullish = false →
      msg.attachments = jsGet m "attachments") ∧
    readMessages zipW6 "c" = .ok [⟨.str "9", .str "", .str "hi", .str ""⟩] := by
  unfold msgFromJson at h
  cases hm : m.nullish with
  | true => rw [hm] at h; exact absurd h (by simp)
  | false =>
      rw [hm] at h
      simp only [Bool.false_eq_true, if_false, Except.ok.injEq] at h
      subst h
      refine ⟨?_, ?_, ?_, ?_, ?_, ?_, ?_, ?_, rfl⟩ <;> intros <;> simp [coal, *]

/-- Witness for C6: the mixed-casing record in a JSON log. -/
theorem c6_field_casing_witness :
    readMessages zipW6 "c" = .ok [⟨.str "9", .str "", .str "hi", .str ""⟩] :=
  (c6_field_casing mW6 ⟨.str "9", .str "", .str "hi", .str ""⟩ rfl).2.2.2.2.2.2.2.2

/-- C10 (amended): no output field of the JSON path is ever undefined;
when neither the capitalized nor the lowercase key holds a non-null
value, the field is the empty string.  In the CSV path, by contrast, a
field whose header column is absent stays undefined. -/
theorem c10_json_field_defaults (m : Jsv) (msg : Msg) (h : msgFromJson m = .ok msg) :
    (msg.id ≠ .undefined ∧ msg.timestamp ≠ .undefined ∧
      msg.content ≠ .undefined ∧ msg.attachments ≠ .undefined) ∧
    ((jsGet m "ID").nullish = true → (jsGet m "id").nullish = true →
      msg.id = .str "") ∧
    ((jsGet m "Timestamp").nullish = true → (jsGet m "timestamp").nullish = true →
      msg.timestamp = .str "") ∧
    ((jsGet m "Contents").nullish = true → (jsGet m "content").nullish = true →
      msg.content = .str "") ∧
    ((jsGet m "Attachments").nullish = true → (jsGet m "attachments").nullish = true →
      msg.attachments = .str "") ∧
    readMessages zipX10 "c" = .ok [⟨.undefined, .str "2021", .str "hi", .undefined⟩] := by
  unfold msgFromJson at h
  cases hm : m.nullish with
  | true => rw [hm] at h; exact absurd h (by simp)
  | false =>
      rw [hm] at h
      simp only [Bool.false_eq_true, if_false, Except.ok.injEq] at h
      subst h
      refine ⟨⟨?_, ?_, ?_, ?_⟩, ?_, ?_, ?_, ?_, rfl⟩
      · exact coal_ne_undef (coal_ne_undef (fun hc => Jsv.noConfusion hc))
      · exact coal_ne_undef (coal_ne_undef (fun hc => Jsv.noConfusion hc))
      · exact coal_ne_undef (coal_ne_undef (fun hc => Jsv.noConfusion hc))
      · exact coal_ne_undef (coal_ne_undef (fun hc => Jsv.noConfusion hc))
      all_goals intros; simp [coal, *]

/-- Witness for C10 at a record with no keys at all, and the CSV log
without ID or Attachments columns. -/
theorem c10_json_field_defaults_witness :
    readMessages zipX10 "c" = .ok [⟨.undefined, .str "2021", .str "hi", .undefined⟩] :=
  (c10_json_field_defaults (.obj []) ⟨.str "", .str "", .str "", .str ""⟩ rfl).2.2.2.2.2

end Discord

namespace Discord

/-! ### Lemmas about listChannelDirs -/

theorem ldcNodupAux (l : List ZipEntry) :
    ∀ acc : List String, acc.Nodup →
      (l.foldl (fun dirs e =>
        match matchChannelPath e.path with
        | some d => if dirs.contains d then dirs else dirs ++ [d]
        | none => dirs) acc).Nodup := by
  induction l with
  | nil => exact fun _ h => h
  | cons e rest ih =>
      intro acc hacc
      simp only [List.foldl_cons]
      apply ih
      cases hm : matchChannelPath e.path with
      | none => simpa [hm] using hacc
      | some d =>
          simp only [hm]
          cases hc : acc.contains d with
          | true => simpa [hc] using hacc
          | false =>
              have hd : d ∉ acc := by simpa using hc
              simp [hc, List.nodup_append, hacc, hd]

theorem ldcMemAux (l : List ZipEntry) :
    ∀ (acc : List String) (d : String),
      (d ∈ l.foldl (fun dirs e =>
        match matchChannelPath e.path with
        | some d2 => if dirs.contains d2 then dirs else dirs ++ [d2]
        | none => dirs) acc) ↔
      (d ∈ acc ∨ ∃ e ∈ l, matchChannelPath e.path = some d) := by
  induction l with
  | nil => intro acc d; simp
  | cons e rest ih =>
      intro acc d
      simp only [List.foldl_cons]
      rw [ih]
      have hstep : (d ∈ (match matchChannelPath e.path with
          | some d2 => if acc.contains d2 then acc else acc ++ [d2]
          | none => acc)) ↔ (d ∈ acc ∨ matchChannelPath e.path = some d) := by
        cases hm : matchChannelPath e.path with
        | none => simp [hm]
        | some d2 =>
            simp only [hm]
            cases hc : acc.contains d2 with
            | true =>
                have hd2 : d2 ∈ acc := by simpa using hc
                simp only [hc, if_true, Option.some.injEq]
                constructor
                · exact Or.inl
                · rintro (h | h)
                  · exact h
                  · exact h ▸ hd2
            | false =>
                simp [hc, List.mem_append, eq_comm]
      rw [hstep]
      simp only [List.mem_cons]
      constructor
      · rintro ((h | h) | ⟨e2, he2, hp⟩)
        · exact Or.inl h
        · exact Or.inr ⟨e, Or.inl rfl, h⟩
        · exact Or.inr ⟨e2, Or.inr he2, hp⟩
      · rintro (h | ⟨e2, (he | he), hp⟩)
        · exact Or.inl (Or.inl h)
        · subst he; exact Or.inl (Or.inr hp)
        · exact Or.inr ⟨e2, he, hp⟩

/-- C9: listChannelDirs returns each distinct channel directory
identifier exactly once: the result has no duplicates, and an identifier
is a member exactly when some archive entry path matches the channel
pattern (second segment of a three-segment Messages path naming one of
the three expected filenames) with that identifier; an archive holding a
JSON log, a CSV log and a metadata file of one channel yields that
identifier once. -/
theorem c9_distinct_channel_dirs :
    (∀ zip : Zip, (listChannelDirs zip).Nodup ∧
      ∀ d, d ∈ listChannelDirs zip ↔ ∃ e ∈ zip, matchChannelPath e.path = some d) ∧
    listChannelDirs zipC9 = ["123"] := by
  refine ⟨fun zip => ⟨?_, fun d => ?_⟩, rfl⟩
  · exact ldcNodupAux zip [] List.nodup_nil
  · simpa [listChannelDirs] using ldcMemAux zip [] d

end Discord

namespace Discord

/-! ### Lemmas about parseCsv -/

theorem getField_cons (k1 : String) (v1 : Jsv) (rest : List (String × Jsv)) (k : String) :
    getField ((k1, v1) :: rest) k = if k1 == k then v1 else getField rest k := by
  simp only [getField, List.find?]
  cases hk : k1 == k <;> simp [hk]

theorem getField_setField_self (o : List (String × Jsv)) (k : String) (v : Jsv) :
    getField (parseCsv.setField o k v) k = v := by
  induction o with
  | nil => simp [parseCsv.setField, getField_cons]
  | cons p rest ih =>
      obtain ⟨k1, v1⟩ := p
      cases hk : k1 == k with
      | true => simp [parseCsv.setField, hk, getField_cons]
      | false => simp [parseCsv.setField, hk, getField_cons, ih]

theorem getField_setField_ne (o : List (String × Jsv)) (k1 k : String) (v : Jsv)
    (h : (k1 == k) = false) :
    getField (parseCsv.setField o k1 v) k = getField o k := by
  induction o with
  | nil => simp [parseCsv.setField, getField_cons, h, getField]
  | cons p rest ih =>
      obtain ⟨k2, v2⟩ := p
      cases hk : k2 == k1 with
      | true =>
          have : k2 = k1 := eq_of_beq hk
          subst this
          simp [parseCsv.setField, hk, getField_cons, h]
      | false =>
          simp only [parseCsv.setField, hk, Bool.false_eq_true, if_false]
          rw [getField_cons, getField_cons, ih]

theorem foldl_assign_skip (ihs : List (Nat × String)) (f : Nat → Jsv) (k : String) :
    ∀ acc, (∀ q ∈ ihs, (q.2 == k) = false) →
      getField (ihs.foldl (fun o hi => parseCsv.setField o hi.2 (f hi.1)) acc) k =
        getField acc k := by
  induction ihs with
  | nil => intro acc _; rfl
  | cons q rest ih =>
      intro acc h
      simp only [List.foldl_cons]
      rw [ih _ (fun q2 hq => h q2 (List.mem_cons_of_mem _ hq))]
      exact getField_setField_ne acc q.2 k (f q.1) (h q (List.mem_cons_self _ _))

theorem foldl_assign_get (ihs : List (Nat × String)) (f : Nat → Jsv) (i : Nat) (k : String) :
    ∀ acc, (i, k) ∈ ihs → (ihs.map Prod.snd).Nodup →
      getField (ihs.foldl (fun o hi => parseCsv.setField o hi.2 (f hi.1)) acc) k = f i := by
  induction ihs with
  | nil => intro acc h _; cases h
  | cons q rest ih =>
      intro acc hmem hnd
      have hnd2 : (q.2 :: rest.map Prod.snd).Nodup := by simpa using hnd
      simp only [List.foldl_cons]
      rcases List.mem_cons.mp hmem with heq | hrest
      · subst heq
        have hk : ∀ p ∈ rest, (p.2 == k) = false := by
          intro p hp
          have hmem2 : p.2 ∈ rest.map Prod.snd := List.mem_map_of_mem _ hp
          refine beq_eq_false_iff_ne.mpr (fun he => ?_)
          subst he
          exact (List.nodup_cons.mp hnd2).1 hmem2
        rw [foldl_assign_skip rest f k _ hk]
        exact getField_setField_self acc k (f i)
      · exact ih _ hrest (List.nodup_cons.mp hnd2).2

theorem splitList_ne_nil (c : Char) (l : List Char) : splitList c l ≠ [] := by
  induction l with
  | nil => simp [splitList]
  | cons x xs ih =>
      simp only [splitList]
      cases hx : x == c with
      | true => simp [hx]
      | false =>
          simp only [hx, Bool.false_eq_true, if_false]
          cases hs : splitList c xs with
          | nil => exact absurd hs ih
          | cons p ps => simp

theorem splitLines_ne_nil (t : String) : splitLines t ≠ [] := by
  unfold splitLines splitChar
  cases hs : splitList '\n' t.data with
  | nil => exact absurd hs (splitList_ne_nil _ _)
  | cons p ps => cases ps <;> simp [splitLinesAux]

end Discord

namespace Discord

/-- C7: parseCsv treats the first line of the trimmed text as a header
row naming fields positionally; every further line is split on the comma
and mapped to the headers by position, a missing trailing value staying
undefined; records come in input line order.  On the sample log the two
records carry ID 1 and Contents World, and a row shorter than its header
row leaves the trailing field unset. -/
theorem c7_csv_positional (text : String)
    (hnd : (splitChar ',' ((splitLines (jsTrim text)).headD "")).Nodup) :
    ((parseCsv text).length = (splitLines (jsTrim text)).length - 1) ∧
    (∀ j line, (splitLines (jsTrim text)).get? (j + 1) = some line →
      ∀ i h, (splitChar ',' ((splitLines (jsTrim text)).headD "")).get? i = some h →
        ∃ row, (parseCsv text).get? j = some row ∧
          getField row h = ((splitChar ',' line).get? i).elim Jsv.undefined Jsv.str) ∧
    (parseCsv csvSample).length = 2 ∧
    getField ((parseCsv csvSample).headD []) "ID" = .str "1" ∧
    getField ((parseCsv csvSample).getD 1 []) "Contents" = .str "World" ∧
    getField ((parseCsv "A,B\nx").headD []) "B" = .undefined := by
  have hne := splitLines_ne_nil (jsTrim text)
  have hlen0 : ((splitLines (jsTrim text)).length == 0) = false := by
    cases hsp : splitLines (jsTrim text) with
    | nil => exact absurd hsp hne
    | cons a l => simp
  have hps : parseCsv text =
      ((splitLines (jsTrim text)).drop 1).map (fun line =>
        ((splitChar ',' ((splitLines (jsTrim text)).headD "")).enum).foldl
          (fun o hi => parseCsv.setField o hi.2
            (((splitChar ',' line).get? hi.1).elim Jsv.undefined Jsv.str)) []) := by
    simp only [parseCsv, hlen0, Bool.false_eq_true, if_false]
  refine ⟨?_, ?_, rfl, rfl, rfl, rfl⟩
  · rw [hps, List.length_map, List.length_drop]
  · intro j line hline i h hh
    have hdrop : ((splitLines (jsTrim text)).drop 1).get? j = some line := by
      rw [List.get?_drop]
      simpa [Nat.add_comm] using hline
    refine ⟨((splitChar ',' ((splitLines (jsTrim text)).headD "")).enum).foldl
      (fun o hi => parseCsv.setField o hi.2
        (((splitChar ',' line).get? hi.1).elim Jsv.undefined Jsv.str)) [], ?_, ?_⟩
    · rw [hps, List.get?_map, hdrop]
      rfl
    · have hmem : (i, h) ∈ (splitChar ',' ((splitLines (jsTrim text)).headD "")).enum := by
        rw [List.mk_mem_enum_iff_getElem?, ← List.get?_eq_getElem?]
        exact hh
      have hnd2 : ((splitChar ',' ((splitLines (jsTrim text)).headD "")).enum.map
          Prod.snd).Nodup := by
        rw [List.enum_map_snd]; exact hnd
      exact foldl_assign_get ((splitChar ',' ((splitLines (jsTrim text)).headD "")).enum)
        (fun n => ((splitChar ',' line).get? n).elim Jsv.undefined Jsv.str) i h [] hmem hnd2

/-- Witness for C7 at the sample log of the repository test suite. -/
theorem c7_csv_positional_witness :
    (parseCsv csvSample).length = 2 ∧
    getField ((parseCsv csvSample).headD []) "ID" = .str "1" ∧
    getField ((parseCsv csvSample).getD 1 []) "Contents" = .str "World" :=
  ⟨(c7_csv_positional csvSample (by decide)).2.2.1,
   (c7_csv_positional csvSample (by decide)).2.2.2.1,
   (c7_csv_positional csvSample (by decide)).2.2.2.2.1⟩

end Discord
